import Mathlib

/-!
# Verification of the `lucky` fortune service

Shallow embedding of the core logic of the `lucky` repository (a small CRUD
web service for authors / fortunes / tags) together with proofs of the
specification claims about it.

* `models.py`: entity-id codec wrappers, `Base.select`, `Base.new_or_existing`,
  `Base.save` (uniqueness-conflict translation and rollback).
* `schemas.py`: `EntityId` validation, `FortunePatch.verify_any`.
* `router.py`: the retried create / patch fortune operations.
* `dependencies.py`: `catch_session_exceptions` (conflict to HTTP 409).

The TSID string codec (library `tsidpy`), the SQLite storage behaviour
(uniqueness enforcement, error messages, timestamps, scan order) and the
`tenacity` retry decorator are dependencies whose code is not part of the
repository; they are modelled from the specification's description of them,
as flagged on each definition.
-/

namespace Lucky

/-! ## Entity-id codec (models.py, tsidpy)

`entity_id_to_string` / `entity_id_from_string` wrap `tsidpy.TSID`: a 64-bit
number rendered as a fixed 13-character Crockford base-32 string. -/

/-- Modelled from the spec: the Crockford base-32 alphabet used for the fixed
13-character TSID representation (digits and uppercase letters without
I, L, O, U).  Corroborated by the repository's own test vector
`687074410262059062 = "0K27TH4PYWP1P"`. -/
def tsidAlphabet : List Char :=
  ['0', '1', '2', '3', '4', '5', '6', '7', '8', '9', 'A', 'B', 'C', 'D', 'E',
   'F', 'G', 'H', 'J', 'K', 'M', 'N', 'P', 'Q', 'R', 'S', 'T', 'V', 'W', 'X',
   'Y', 'Z']

/-- The character encoding a 5-bit digit. -/
def charOfDigit (d : Nat) : Char := tsidAlphabet.getD d '0'

/-- Modelled from the spec: the value of one character of a TSID string.
Decoding is case-insensitive and maps the usual Crockford aliases
(`O` to `0`, `I`/`L` to `1`); any other character is invalid. -/
def digitOfChar (c : Char) : Option Nat :=
  if 48 ≤ c.toNat && c.toNat ≤ 57 then some (c.toNat - 48)
  else
    match c with
    | 'o' => some 0 | 'O' => some 0
    | 'i' => some 1 | 'I' => some 1 | 'l' => some 1
    | 'L' => some 1
    | 'a' => some 10 | 'A' => some 10
    | 'b' => some 11 | 'B' => some 11
    | 'c' => some 12 | 'C' => some 12
    | 'd' => some 13 | 'D' => some 13
    | 'e' => some 14 | 'E' => some 14
    | 'f' => some 15 | 'F' => some 15
    | 'g' => some 16 | 'G' => some 16
    | 'h' => some 17 | 'H' => some 17
    | 'j' => some 18 | 'J' => some 18
    | 'k' => some 19 | 'K' => some 19
    | 'm' => some 20 | 'M' => some 20
    | 'n' => some 21 | 'N' => some 21
    | 'p' => some 22 | 'P' => some 22
    | 'q' => some 23 | 'Q' => some 23
    | 'r' => some 24 | 'R' => some 24
    | 's' => some 25 | 'S' => some 25
    | 't' => some 26 | 'T' => some 26
    | 'v' => some 27 | 'V' => some 27
    | 'w' => some 28 | 'W' => some 28
    | 'x' => some 29 | 'X' => some 29
    | 'y' => some 30 | 'Y' => some 30
    | 'z' => some 31 | 'Z' => some 31
    | _ => none

/-- The `k` base-32 digits of `n`, most significant first (the fixed-width
digit expansion used by the 13-character TSID rendering). -/
def natDigitsBE : Nat → Nat → List Nat
  | 0, _ => []
  | k + 1, n => natDigitsBE k (n / 32) ++ [n % 32]

/-- Recombine a most-significant-first digit list into a number. -/
def foldDigits (ds : List Nat) : Nat :=
  ds.foldl (fun a d => a * 32 + d) 0

/-- Decode every character of a TSID string, failing on the first invalid
character. -/
def charsToDigits : List Char → Option (List Nat)
  | [] => some []
  | c :: cs =>
    match digitOfChar c, charsToDigits cs with
    | some d, some ds => some (d :: ds)
    | _, _ => none

/-- Modelled from the spec: `tsidpy.TSID(number).to_string()` - the fixed
13-character Crockford base-32 rendering of the number's low 64 bits. -/
def tsid_to_string (id : Nat) : String :=
  String.mk ((natDigitsBE 13 (id % 2 ^ 64)).map charOfDigit)

/-- Modelled from the spec: `tsidpy.TSID.from_string(s).number` - strict
decoding.  The string must be exactly 13 valid characters and the leading
character must carry no 65th bit (value below 16); the decoded 64-bit word is
returned as a signed 64-bit integer (values with bit 63 set are negative). -/
def tsid_from_string (s : String) : Option Int :=
  let cs := s.data
  if cs.length = 13 then
    match charsToDigits cs with
    | none => none
    | some ds =>
      if 16 ≤ ds.headD 0 then none
      else
        let n := foldDigits ds
        some (if 2 ^ 63 ≤ n then (n : Int) - 2 ^ 64 else (n : Int))
  else none

/-- `sys.maxsize`: the largest signed 64-bit integer. -/
def maxInt64 : Nat := 2 ^ 63 - 1

/-- `models.entity_id_from_string`: decode a TSID string and reject any
number outside `[0, sys.maxsize]` with `ValueError('invalid string')`. -/
def entity_id_from_string (s : String) : Except String Nat :=
  match tsid_from_string s with
  | none => Except.error "invalid tsid string"
  | some number =>
    if number < 0 ∨ (maxInt64 : Int) < number then Except.error "invalid string"
    else Except.ok number.toNat

/-- `models.entity_id_to_string`: render an id as its TSID string. -/
def entity_id_to_string (id : Nat) : String := tsid_to_string id

/-- `schemas.EntityId` validation failures: pydantic's string length
constraints and `ValueError`s raised by the after-validator. -/
inductive ValErr where
  | stringTooShort
  | stringTooLong
  | valueError (msg : String)
  deriving DecidableEq

/-- `schemas.EntityId`: a path / body entity id is a string of exactly 13
characters (StringConstraints) that `entity_id_from_string` accepts
(AfterValidator).  Every failure is a pydantic validation error (HTTP 422),
never a server error. -/
def entityIdValidate (s : String) : Except ValErr Nat :=
  if s.length < 13 then Except.error ValErr.stringTooShort
  else if 13 < s.length then Except.error ValErr.stringTooLong
  else
    match entity_id_from_string s with
    | Except.error m => Except.error (ValErr.valueError m)
    | Except.ok n => Except.ok n

end Lucky

namespace Lucky

/-! ## Python exceptions, storage outcomes (models.py, dependencies.py) -/

deriving instance DecidableEq for Except

/-- str.lower() on an ASCII string, per character. -/
def strToLower (s : String) : String := String.mk (s.data.map Char.toLower)

/-- The Python exceptions the embedded code can raise. -/
inductive PyExc where
  | integrityError (orig : String)
  | entityExists (msg : String)
  | httpException (status : Nat) (detail : String)
  | multipleResultsFound
  | otherError (msg : String)
  deriving DecidableEq

/-- A failure raised by the storage layer during commit: an
sqlalchemy.exc.IntegrityError carrying the database driver's message, or any
other database exception (for example the OverflowError of the repository's
own test suite). -/
inductive StorageExc where
  | integrityError (orig : String)
  | otherError (msg : String)
  deriving DecidableEq

/-- The exception as it reaches the except clauses of Base.save. -/
def StorageExc.toPyExc : StorageExc → PyExc
  | StorageExc.integrityError orig => PyExc.integrityError orig
  | StorageExc.otherError msg => PyExc.otherError msg

/-- Outcome of a database commit, decided by the storage layer (uniqueness is
enforced by the database, not by the application). -/
inductive CommitOutcome where
  | success
  | failure (e : StorageExc)
  deriving DecidableEq

/-- Is the first list a leading segment of the second (character lists)? -/
def listPrefixEq : List Char → List Char → Bool
  | [], _ => true
  | _ :: _, [] => false
  | a :: as, b :: bs => a == b && listPrefixEq as bs

/-- Substring search over character lists. -/
def containsSub (needle : List Char) : List Char → Bool
  | [] => needle.isEmpty
  | c :: t => listPrefixEq needle (c :: t) || containsSub needle t

/-- Base.save's conflict test:
re.search('unique constraint failed', str(e.orig), re.IGNORECASE). -/
def matchesUniquePattern (orig : String) : Bool :=
  containsSub "unique constraint failed".data (orig.data.map Char.toLower)

/-- Does save translate this storage failure into EntityExistsError? -/
def isUniqueExc : StorageExc → Bool
  | StorageExc.integrityError orig => matchesUniquePattern orig
  | StorageExc.otherError _ => false

/-! ## Entity records and the generic store operations (models.Base) -/

/-- An ORM-mapped entity row: primary key (None until the insert-time default
assigns a fresh TSID), its column values, and the Base timestamp columns
(created_at has a server default at insert, updated_at an onupdate hook). -/
structure Rec where
  id : Option Nat := none
  attrs : List (String × String) := []
  created_at : Option Nat := none
  updated_at : Option Nat := none
  deriving DecidableEq

/-- The value of one mapped column. -/
def attrValue (r : Rec) (a : String) : Option String :=
  (r.attrs.find? (fun p => p.1 == a)).map (fun p => p.2)

/-- Does a row match every equality criterion (the WHERE clauses built by
Base.new_or_existing)? -/
def matchesCriteria (criteria : List (String × String)) (r : Rec) : Bool :=
  criteria.all (fun p => attrValue r p.1 == some p.2)

/-- Base.new_or_existing: SELECT filtered by one equality WHERE clause per
criterion, one_or_none (MultipleResultsFound when several rows match),
falling back to cls(**attrs) - a fresh, unpersisted instance carrying exactly
the criteria.  The source runs only this SELECT: it never adds to or flushes
the session. -/
def new_or_existing (store : List Rec) (criteria : List (String × String)) :
    Except PyExc Rec :=
  match store.filter (matchesCriteria criteria) with
  | [] => Except.ok { id := none, attrs := criteria, created_at := none, updated_at := none }
  | [r] => Except.ok r
  | _ :: _ :: _ => Except.error PyExc.multipleResultsFound

/-- Modelled from the spec: Base.select runs SELECT with no ORDER BY, and the
SQLite rowid B-tree streams the rows of the table in primary-key order. -/
def selectRows (store : List Rec) : List Rec :=
  store.insertionSort (fun a b => a.id.getD 0 ≤ b.id.getD 0)

/-! ## The session and Base.save (models.py) -/

/-- The request-scoped session over one entity table: the rows already in
the database, and the pending (added or dirty) rows not yet flushed. -/
structure DbSession where
  committed : List Rec := []
  pending : List Rec := []
  deriving DecidableEq

/-- Flush one row at clock tick t.  A row whose id is present in the table is
UPDATEd (the onupdate hook stamps updated_at); otherwise the row is INSERTed,
the id default assigning the fresh id nid when none is set and the server
default stamping created_at. -/
def insertOrUpdate (t nid : Nat) (committed : List Rec) (r : Rec) : List Rec × Rec :=
  match r.id with
  | some i =>
      if committed.any (fun c => c.id == some i) then
        let rNew := { r with updated_at := some t }
        (committed.map (fun c => if c.id == some i then rNew else c), rNew)
      else
        let rNew := { r with created_at := some (r.created_at.getD t) }
        (committed ++ [rNew], rNew)
  | none =>
      let rNew := { r with id := some nid, created_at := some (r.created_at.getD t) }
      (committed ++ [rNew], rNew)

/-- Flush a list of pending rows in order, threading the id generator;
returns the new table and the flushed version of every row. -/
def commitRows (t : Nat) : Nat → List Rec → List Rec → List Rec × List Rec
  | _, committed, [] => (committed, [])
  | nid, committed, r :: rs =>
    let step := insertOrUpdate t nid committed r
    let nid2 := if r.id.isNone then nid + 1 else nid
    let rest := commitRows t nid2 step.1 rs
    (rest.1, step.2 :: rest.2)

/-- models.Base.save: session.add(self) then commit.  An IntegrityError whose
driver message contains 'unique constraint failed' (case-insensitively) is
rolled back and re-raised as EntityExistsError '<classname> exists' (the
lowercased class name); every other storage exception propagates unchanged
(and the bare raise performs no rollback).  On success the session is
flushed and the refreshed entity returned.  The commit outcome is an input:
whether the flush violates a constraint is decided by the database. -/
def save (className : String) (self : Rec) (sess : DbSession)
    (outcome : CommitOutcome) (t nid : Nat) : Except PyExc Rec × DbSession :=
  let pend := sess.pending ++ [self]
  match outcome with
  | CommitOutcome.success =>
      let flush := commitRows t nid sess.committed pend
      (Except.ok (flush.2.getLastD self), { committed := flush.1, pending := [] })
  | CommitOutcome.failure e =>
      match e with
      | StorageExc.integrityError orig =>
          if matchesUniquePattern orig then
            (Except.error (PyExc.entityExists (strToLower className ++ " exists")),
             { committed := sess.committed, pending := [] })
          else
            (Except.error (StorageExc.integrityError orig).toPyExc,
             { sess with pending := pend })
      | StorageExc.otherError msg =>
          (Except.error (StorageExc.otherError msg).toPyExc, { sess with pending := pend })

/-! ## The three tables and the router operations (router.py) -/

/-- The entity tables. -/
inductive Tbl where
  | authors
  | tags
  | fortunes
  deriving DecidableEq

/-- The three tables plus the id generator state.  Modelled from the spec:
entity_id() draws time-sortable TSIDs that increase with creation time,
modelled as a counter. -/
structure LuckyDB where
  authors : List Rec := []
  tags : List Rec := []
  fortunes : List Rec := []
  nextId : Nat := 1
  deriving DecidableEq

def LuckyDB.table (db : LuckyDB) : Tbl → List Rec
  | Tbl.authors => db.authors
  | Tbl.tags => db.tags
  | Tbl.fortunes => db.fortunes

def LuckyDB.setTable (db : LuckyDB) : Tbl → List Rec → LuckyDB
  | Tbl.authors, l => { db with authors := l }
  | Tbl.tags, l => { db with tags := l }
  | Tbl.fortunes, l => { db with fortunes := l }

/-- The unique column of each table: authors.name, tags.tag,
fortunes.content (unique=True in models.py). -/
def uniqueCol : Tbl → String
  | Tbl.authors => "name"
  | Tbl.tags => "tag"
  | Tbl.fortunes => "content"

def tblName : Tbl → String
  | Tbl.authors => "authors"
  | Tbl.tags => "tags"
  | Tbl.fortunes => "fortunes"

/-- Modelled from the spec: SQLite's IntegrityError message for a violated
unique column. -/
def uniqueErrMsg (tb : Tbl) : String :=
  "UNIQUE constraint failed: " ++ tblName tb ++ "." ++ uniqueCol tb

/-- Does writing row r into table tb violate its unique column?  An UPDATE
conflicts with any other row holding the value, an INSERT with any row. -/
def violatesUnique (tb : Tbl) (table : List Rec) (r : Rec) : Bool :=
  match attrValue r (uniqueCol tb) with
  | none => false
  | some v =>
      match r.id with
      | some i => table.any (fun c => c.id != some i && attrValue c (uniqueCol tb) == some v)
      | none => table.any (fun c => attrValue c (uniqueCol tb) == some v)

/-- Modelled from the spec: SQLite writing one row of a flush - abort with
the IntegrityError message when the row violates its unique column, else
insert or update it, fresh rows consuming the id generator. -/
def applyOne (t : Nat) (db : LuckyDB) (x : Tbl × Rec) : Except String (LuckyDB × Rec) :=
  if violatesUnique x.1 (db.table x.1) x.2 then Except.error (uniqueErrMsg x.1)
  else
    let step := insertOrUpdate t db.nextId (db.table x.1) x.2
    let db2 := db.setTable x.1 step.1
    let db3 := if x.2.id.isNone then { db2 with nextId := db2.nextId + 1 } else db2
    Except.ok (db3, step.2)

/-- Modelled from the spec: SQLite committing a multi-row flush.  The first
unique-constraint violation aborts the transaction with the corresponding
IntegrityError message and writes nothing; otherwise every row is applied in
order, fresh rows receiving generated ids and server timestamps. -/
def applyPend (t : Nat) (db : LuckyDB) :
    List (Tbl × Rec) → Except String (LuckyDB × List Rec)
  | [] => Except.ok (db, [])
  | x :: rest =>
      match applyOne t db x with
      | Except.error m => Except.error m
      | Except.ok step =>
          match applyPend t step.1 rest with
          | Except.error m => Except.error m
          | Except.ok res => Except.ok (res.1, step.2 :: res.2)

/-- Base.save as invoked on a fortune by the router, acting on the full
database: flush the session's pending rows; on a unique violation roll back
(database unchanged) and raise EntityExistsError '<classname> exists'; on
any other storage failure re-raise it unchanged (the aborted transaction
wrote nothing). -/
def saveLucky (className : String) (t : Nat) (db : LuckyDB) (pend : List (Tbl × Rec))
    (self : Rec) : Except PyExc Rec × LuckyDB :=
  match applyPend t db pend with
  | Except.ok res => (Except.ok (res.2.getLastD self), res.1)
  | Except.error orig =>
      if matchesUniquePattern orig then
        (Except.error (PyExc.entityExists (strToLower className ++ " exists")), db)
      else
        (Except.error (PyExc.integrityError orig), db)

/-- schemas.FortuneIn: the POST /api/fortunes body. -/
structure FortuneIn where
  author : String
  tags : List String := []
  content : String
  deriving DecidableEq

/-- schemas.FortunePatch: the PATCH /api/fortunes/{id} body; every field
optional and None by default. -/
structure FortunePatch where
  author : Option String := none
  tags : Option (List String) := none
  content : Option String := none
  deriving DecidableEq

/-- schemas.FortunePatch.verify_any: reject the patch when author, tags and
content are all None. -/
def verify_any (p : FortunePatch) : Except String FortunePatch :=
  if p.author = none ∧ p.tags = none ∧ p.content = none then
    Except.error "all attributes are missing"
  else Except.ok p

/-- Is the string length within pydantic StringConstraints bounds? -/
def validLen (lo hi : Nat) (s : String) : Bool :=
  decide (lo ≤ s.length) && decide (s.length ≤ hi)

/-- pydantic field validation of FortunePatch: author 1-128 characters, each
tag 1-32, content 1-512 (schemas.py type aliases). -/
def fieldErrors (p : FortunePatch) : List String :=
  (match p.author with
   | none => []
   | some a => if validLen 1 128 a then [] else ["author: string length"])
  ++ (match p.tags with
      | none => []
      | some ts => if ts.all (validLen 1 32) then [] else ["tags: string length"])
  ++ (match p.content with
      | none => []
      | some c => if validLen 1 512 c then [] else ["content: string length"])

/-- Full pydantic validation of a FortunePatch body: field constraints first,
then the model validator, whose ValueError surfaces as the pydantic message
'Value error, <msg>'. -/
def validateFortunePatch (p : FortunePatch) : Except (List String) FortunePatch :=
  match fieldErrors p with
  | [] =>
      match verify_any p with
      | Except.error m => Except.error ["Value error, " ++ m]
      | Except.ok p2 => Except.ok p2
  | e :: es => Except.error (e :: es)

/-- Python truthiness of an optional string: None and the empty string are
falsy (the `if patch.author:` / `if patch.content:` tests). -/
def truthy : Option String → Bool
  | none => false
  | some s => !s.isEmpty

/-- Set one mapped column of a row. -/
def setAttr (r : Rec) (a v : String) : Rec :=
  { r with attrs := (a, v) :: r.attrs.filter (fun p => p.1 != a) }

/-- Tag.new_or_existing applied to each requested tag value in order. -/
def resolveTags (store : List Rec) : List String → Except PyExc (List Rec)
  | [] => Except.ok []
  | v :: vs =>
      match new_or_existing store [("tag", v)], resolveTags store vs with
      | Except.ok r, Except.ok rs => Except.ok (r :: rs)
      | Except.error e, _ => Except.error e
      | Except.ok _, Except.error e => Except.error e

/-- The fresh related rows a fortune save cascades into the flush: the
author when it is newly constructed (no id yet) and every newly constructed
tag. -/
def pendingOf (authorOpt : Option Rec) (tagsOpt : Option (List Rec)) :
    List (Tbl × Rec) :=
  (match authorOpt with
   | some a => if a.id.isNone then [(Tbl.authors, a)] else []
   | none => [])
  ++ (match tagsOpt with
      | some rs => (rs.filter (fun r => r.id.isNone)).map (fun r => (Tbl.tags, r))
      | none => [])

/-- One attempt of router._create_fortune (the body wrapped by the retry
decorator): get-or-create the author, get-or-create each tag, construct the
fortune (relations flattened onto the row: the author as the author_name
column; the fortune-tag join rows are outside the model since no claim
observes them, fresh tags still being persisted with the save), then
Fortune.save with the fresh related rows cascaded into the flush. -/
def create_fortune_once (t : Nat) (db : LuckyDB) (inp : FortuneIn) :
    Except PyExc Rec × LuckyDB :=
  match new_or_existing db.authors [("name", inp.author)] with
  | Except.error e => (Except.error e, db)
  | Except.ok author =>
      match resolveTags db.tags inp.tags with
      | Except.error e => (Except.error e, db)
      | Except.ok tagRecs =>
          let fortune : Rec :=
            { id := none,
              attrs := [("content", inp.content), ("author_name", inp.author)],
              created_at := none, updated_at := none }
          saveLucky "Fortune" t db
            (pendingOf (some author) (some tagRecs) ++ [(Tbl.fortunes, fortune)]) fortune

/-- The fortune row after _patch_fortune applies the provided fields: the
resolved author's name overwrites the author_name column when the author
field is (truthily) present, and the content column is overwritten when
content is (truthily) present. -/
def patchedFortune (fortune : Rec) (authorOpt : Option Rec) (p : FortunePatch) : Rec :=
  let f1 := match authorOpt with
    | some author => setAttr fortune "author_name" ((attrValue author "name").getD "")
    | none => fortune
  if truthy p.content then setAttr f1 "content" (p.content.getD "") else f1

/-- One attempt of router._patch_fortune: load the fortune by id (HTTP 404
when absent), flag_modified('content') forcing the row to be written even if
no column changes, resolve the new author via new_or_existing when the field
is (truthily) present, overwrite content when present, resolve the tags when
the field is not None, then Fortune.save. -/
def patch_fortune_once (t : Nat) (db : LuckyDB) (fid : Nat) (p : FortunePatch) :
    Except PyExc Rec × LuckyDB :=
  match db.fortunes.find? (fun r => r.id == some fid) with
  | none => (Except.error (PyExc.httpException 404 "fortune not found"), db)
  | some fortune =>
      match (if truthy p.author then
               (new_or_existing db.authors [("name", p.author.getD "")]).map some
             else Except.ok none) with
      | Except.error e => (Except.error e, db)
      | Except.ok authorOpt =>
          match (match p.tags with
                 | some ts => (resolveTags db.tags ts).map some
                 | none => Except.ok none) with
          | Except.error e => (Except.error e, db)
          | Except.ok tagsOpt =>
              saveLucky "Fortune" t db
                (pendingOf authorOpt tagsOpt
                  ++ [(Tbl.fortunes, patchedFortune fortune authorOpt p)])
                (patchedFortune fortune authorOpt p)

/-! ## The retry decorator (tenacity) and the HTTP boundary -/

/-- Modelled from the spec: tenacity wait_exponential(multiplier=0.1,
min=0.1) in milliseconds - after failed attempt n sleep
max(100, 100 * 2 ^ (n - 1)) ms, so 100, 200, 400 ms. -/
def waitMs (n : Nat) : Nat := max 100 (100 * 2 ^ (n - 1))

/-- Modelled from the spec: the decorator retry(reraise=True,
wait=wait_exponential(multiplier=0.1, min=0.1), stop=stop_after_attempt(4))
on _create_fortune and _patch_fortune.  Its default retry predicate retries
on any raised exception; after the fourth failed attempt the last exception
is re-raised unchanged.  Returns the result, the final database, the number
of attempts made, and the waits slept between attempts.  k is the current
attempt number; the fuel argument only witnesses termination and is never
exhausted when the loop starts from attempt 1. -/
def retryLoop (body : LuckyDB → Except PyExc Rec × LuckyDB) :
    Nat → Nat → LuckyDB → Except PyExc Rec × LuckyDB × Nat × List Nat
  | k, 0, db =>
      let step := body db
      (step.1, step.2, k, [])
  | k, fuel + 1, db =>
      match body db with
      | (Except.ok a, db2) => (Except.ok a, db2, k, [])
      | (Except.error e, db2) =>
          if 4 ≤ k then (Except.error e, db2, k, [])
          else
            let next := retryLoop body (k + 1) fuel db2
            (next.1, next.2.1, next.2.2.1, waitMs k :: next.2.2.2)

/-- The retry decorator applied to a request body: start at attempt 1. -/
def retryCall (body : LuckyDB → Except PyExc Rec × LuckyDB) (db : LuckyDB) :
    Except PyExc Rec × LuckyDB × Nat × List Nat :=
  retryLoop body 1 4 db

/-- An HTTP response: status, error details, entity body on success. -/
structure HttpResponse where
  status : Nat
  detail : List String := []
  body : Option Rec := none
  deriving DecidableEq

/-- dependencies.catch_session_exceptions plus FastAPI's exception mapping:
EntityExistsError becomes HTTP 409 carrying its message, an explicit
HTTPException keeps its status and detail, any other exception is a 500
server error, success is a 200 with the entity. -/
def httpOf (r : Except PyExc Rec) : HttpResponse :=
  match r with
  | Except.ok x => { status := 200, detail := [], body := some x }
  | Except.error (PyExc.entityExists msg) => { status := 409, detail := [msg] }
  | Except.error (PyExc.httpException s d) => { status := s, detail := [d] }
  | Except.error _ => { status := 500, detail := ["internal server error"] }

/-- PATCH /api/fortunes/{id}: FastAPI validates the path id (EntityId) and
the body (FortunePatch) before the handler runs; any validation failure is an
HTTP 422 listing every error, and the handler - hence the store - is never
invoked (the Bool reports whether it ran).  Otherwise the retried
_patch_fortune runs and its outcome is mapped to HTTP. -/
def patchFortuneEndpoint (t : Nat) (db : LuckyDB) (rawId : String) (p : FortunePatch) :
    HttpResponse × LuckyDB × Bool :=
  let idErrs : List String :=
    match entityIdValidate rawId with
    | Except.error ValErr.stringTooShort => ["string_too_short"]
    | Except.error ValErr.stringTooLong => ["string_too_long"]
    | Except.error (ValErr.valueError m) => ["Value error, " ++ m]
    | Except.ok _ => []
  match entityIdValidate rawId, validateFortunePatch p with
  | Except.ok fid, Except.ok p2 =>
      let run := retryCall (fun d => patch_fortune_once t d fid p2) db
      (httpOf run.1, run.2.1, true)
  | _, Except.error bodyErrs => ({ status := 422, detail := idErrs ++ bodyErrs }, db, false)
  | Except.error _, Except.ok _ => ({ status := 422, detail := idErrs }, db, false)

end Lucky

namespace Lucky

/-! ## Lemmas about the digit expansion -/

theorem digitOfChar_charOfDigit : ∀ d < 32, digitOfChar (charOfDigit d) = some d := by
  decide

theorem natDigitsBE_length : ∀ (k n : Nat), (natDigitsBE k n).length = k := by
  intro k
  induction k with
  | zero => intro n; rfl
  | succ k ih =>
      intro n
      simp [natDigitsBE, ih]

theorem natDigitsBE_lt : ∀ (k n : Nat), ∀ d ∈ natDigitsBE k n, d < 32 := by
  intro k
  induction k with
  | zero => intro n d hd; simp [natDigitsBE] at hd
  | succ k ih =>
      intro n d hd
      simp only [natDigitsBE, List.mem_append, List.mem_singleton] at hd
      rcases hd with hd | hd
      · exact ih _ d hd
      · subst hd; exact Nat.mod_lt _ (by norm_num)

theorem foldDigits_natDigitsBE : ∀ (k n : Nat), foldDigits (natDigitsBE k n) = n % 32 ^ k := by
  intro k
  induction k with
  | zero => intro n; simp [natDigitsBE, foldDigits, Nat.mod_one]
  | succ k ih =>
      intro n
      have h1 : foldDigits (natDigitsBE (k + 1) n)
          = foldDigits (natDigitsBE k (n / 32)) * 32 + n % 32 := by
        simp [natDigitsBE, foldDigits, List.foldl_append]
      rw [h1, ih]
      have h32 : 0 < 32 := by norm_num
      have hmod : n % (32 * 32 ^ k) = n % 32 + 32 * (n / 32 % 32 ^ k) := Nat.mod_mul
      have hpow : (32 : Nat) ^ (k + 1) = 32 * 32 ^ k := by
        rw [pow_succ]; omega
      rw [hpow, hmod]
      omega

theorem natDigitsBE_headD :
    ∀ (k n : Nat), (natDigitsBE (k + 1) n).headD 0 = n / 32 ^ k % 32 := by
  intro k
  induction k with
  | zero => intro n; simp [natDigitsBE]
  | succ k ih =>
      intro n
      have hlen : (natDigitsBE (k + 1) (n / 32)).length = k + 1 := natDigitsBE_length _ _
      have hne : natDigitsBE (k + 1) (n / 32) ≠ [] := by
        intro h; rw [h] at hlen; simp at hlen
      obtain ⟨a, l, hal⟩ := List.exists_cons_of_ne_nil hne
      have h1 : natDigitsBE (k + 1 + 1) n
          = natDigitsBE (k + 1) (n / 32) ++ [n % 32] := rfl
      rw [h1, hal]
      have h2 := ih (n / 32)
      rw [hal] at h2
      simp only [List.headD_cons] at h2
      simp only [List.cons_append, List.headD_cons]
      rw [h2, Nat.div_div_eq_div_mul]
      congr 1
      rw [pow_succ, Nat.mul_comm]

theorem charsToDigits_map :
    ∀ ds : List Nat, (∀ d ∈ ds, d < 32) →
      charsToDigits (ds.map charOfDigit) = some ds := by
  intro ds
  induction ds with
  | nil => intro _; rfl
  | cons d ds ih =>
      intro h
      have hd : d < 32 := h d (by simp)
      have hds : ∀ x ∈ ds, x < 32 := fun x hx => h x (by simp [hx])
      simp only [List.map_cons, charsToDigits, digitOfChar_charOfDigit d hd, ih hds]

theorem foldl_digits_lower :
    ∀ (ds : List Nat) (a : Nat),
      a * 32 ^ ds.length ≤ ds.foldl (fun a d => a * 32 + d) a := by
  intro ds
  induction ds with
  | nil => intro a; simp
  | cons d ds ih =>
      intro a
      have h1 := ih (a * 32 + d)
      calc a * 32 ^ (d :: ds).length = a * 32 * 32 ^ ds.length := by
            rw [List.length_cons, pow_succ]; ring_nf
        _ ≤ (a * 32 + d) * 32 ^ ds.length := by
            have : a * 32 ≤ a * 32 + d := Nat.le_add_right _ _
            exact Nat.mul_le_mul_right _ this
        _ ≤ (d :: ds).foldl (fun a d => a * 32 + d) a := h1

theorem foldl_digits_upper :
    ∀ (ds : List Nat) (a : Nat), (∀ d ∈ ds, d < 32) →
      ds.foldl (fun a d => a * 32 + d) a < (a + 1) * 32 ^ ds.length := by
  intro ds
  induction ds with
  | nil => intro a _; simp
  | cons d ds ih =>
      intro a h
      have hd : d < 32 := h d (by simp)
      have hds : ∀ x ∈ ds, x < 32 := fun x hx => h x (by simp [hx])
      have h1 := ih (a * 32 + d) hds
      calc (d :: ds).foldl (fun a d => a * 32 + d) a
          = ds.foldl (fun a d => a * 32 + d) (a * 32 + d) := rfl
        _ < (a * 32 + d + 1) * 32 ^ ds.length := h1
        _ ≤ ((a + 1) * 32) * 32 ^ ds.length := by
            have : a * 32 + d + 1 ≤ (a + 1) * 32 := by omega
            exact Nat.mul_le_mul_right _ this
        _ = (a + 1) * 32 ^ (d :: ds).length := by
            rw [List.length_cons, pow_succ]; ring_nf

end Lucky

namespace Lucky

/-! ## Codec round-trip and strictness -/

theorem charsToDigits_length :
    ∀ (cs : List Char) (ds : List Nat), charsToDigits cs = some ds → ds.length = cs.length := by
  intro cs
  induction cs with
  | nil => intro ds h; simp [charsToDigits] at h; simp [h.symm]
  | cons c cs ih =>
      intro ds h
      simp only [charsToDigits] at h
      cases hd : digitOfChar c with
      | none => rw [hd] at h; simp at h
      | some d =>
          rw [hd] at h
          cases hds : charsToDigits cs with
          | none => rw [hds] at h; simp at h
          | some ds2 =>
              rw [hds] at h
              simp only [Option.some.injEq] at h
              subst h
              simp [ih ds2 hds]


theorem digitOfChar_lt (c : Char) (d : Nat) (h : digitOfChar c = some d) : d < 32 := by
  unfold digitOfChar at h
  by_cases hdig : (48 ≤ c.toNat && c.toNat ≤ 57) = true
  · rw [if_pos hdig] at h
    injection h with h
    simp only [Bool.and_eq_true, decide_eq_true_eq] at hdig
    omega
  · rw [if_neg hdig] at h
    split at h <;> (try (injection h with h; omega))
    exact Option.noConfusion h

theorem charsToDigits_lt :
    ∀ (cs : List Char) (ds : List Nat), charsToDigits cs = some ds → ∀ d ∈ ds, d < 32 := by
  intro cs
  induction cs with
  | nil => intro ds h d hd; simp [charsToDigits] at h; subst h; simp at hd
  | cons c cs ih =>
      intro ds h d hd
      simp only [charsToDigits] at h
      cases hd0 : digitOfChar c with
      | none => rw [hd0] at h; simp at h
      | some d0 =>
          rw [hd0] at h
          cases hds : charsToDigits cs with
          | none => rw [hds] at h; simp at h
          | some ds2 =>
              rw [hds] at h
              simp only [Option.some.injEq] at h
              subst h
              rcases List.mem_cons.1 hd with h1 | h1
              · subst h1; exact digitOfChar_lt c d hd0
              · exact ih ds2 hds d h1

theorem foldDigits_ge_head (d0 : Nat) (tail : List Nat) :
    d0 * 32 ^ tail.length ≤ foldDigits (d0 :: tail) := by
  have h := foldl_digits_lower tail d0
  simpa [foldDigits] using h

theorem foldDigits_lt_head (d0 : Nat) (tail : List Nat) (h : ∀ d ∈ tail, d < 32) :
    foldDigits (d0 :: tail) < (d0 + 1) * 32 ^ tail.length := by
  have hu := foldl_digits_upper tail d0 h
  simpa [foldDigits] using hu

theorem tsid_from_string_none (s : String) (hlen : s.data.length = 13)
    (hctd : charsToDigits s.data = none) : tsid_from_string s = none := by
  unfold tsid_from_string
  rw [if_pos hlen, hctd]

theorem tsid_from_string_some (s : String) (ds : List Nat) (hlen : s.data.length = 13)
    (hctd : charsToDigits s.data = some ds) :
    tsid_from_string s
      = if 16 ≤ ds.headD 0 then none
        else some (if 2 ^ 63 ≤ foldDigits ds then ((foldDigits ds : Int)) - 2 ^ 64
                   else (foldDigits ds : Int)) := by
  unfold tsid_from_string
  rw [if_pos hlen, hctd]

theorem tsid_from_string_wrong_length (s : String) (hlen : s.data.length ≠ 13) :
    tsid_from_string s = none := by
  unfold tsid_from_string
  rw [if_neg hlen]

theorem entity_id_from_string_none (s : String) (h : tsid_from_string s = none) :
    entity_id_from_string s = Except.error "invalid tsid string" := by
  unfold entity_id_from_string
  rw [h]

theorem entity_id_from_string_some (s : String) (v : Int) (h : tsid_from_string s = some v) :
    entity_id_from_string s
      = if v < 0 ∨ (maxInt64 : Int) < v then Except.error "invalid string"
        else Except.ok v.toNat := by
  unfold entity_id_from_string
  rw [h]

end Lucky

namespace Lucky

/-- The raw value a 13-character TSID string stands for: its Crockford
base-32 reading (65 bits wide in general), when all characters are valid. -/
def tsidRawValue (s : String) : Option Nat :=
  (charsToDigits s.data).map foldDigits

theorem tsid_roundtrip (x : Nat) (h : x ≤ maxInt64) :
    entity_id_from_string (entity_id_to_string x) = Except.ok x := by
  have hlt63 : x < 2 ^ 63 := by
    have : maxInt64 < 2 ^ 63 := by norm_num [maxInt64]
    omega
  have hlt64 : x < 2 ^ 64 := by
    have : (2:Nat) ^ 63 < 2 ^ 64 := by norm_num
    omega
  have hx64 : x % 2 ^ 64 = x := Nat.mod_eq_of_lt hlt64
  have hdlt : ∀ d ∈ natDigitsBE 13 x, d < 32 := natDigitsBE_lt 13 x
  have hdata : (entity_id_to_string x).data = (natDigitsBE 13 x).map charOfDigit := by
    unfold entity_id_to_string tsid_to_string
    rw [hx64]
  have hlen : (entity_id_to_string x).data.length = 13 := by
    rw [hdata]
    simp [natDigitsBE_length]
  have hctd : charsToDigits (entity_id_to_string x).data = some (natDigitsBE 13 x) := by
    rw [hdata]
    exact charsToDigits_map _ hdlt
  have hdivlt : x / 32 ^ 12 < 8 := by
    have hk : (0:Nat) < 32 ^ 12 := by positivity
    rw [Nat.div_lt_iff_lt_mul hk]
    have h8 : (8:Nat) * 32 ^ 12 = 2 ^ 63 := by norm_num
    omega
  have hhead : (natDigitsBE 13 x).headD 0 < 16 := by
    have h12 : (natDigitsBE 13 x).headD 0 = x / 32 ^ 12 % 32 := natDigitsBE_headD 12 x
    rw [h12, Nat.mod_eq_of_lt (lt_trans hdivlt (by norm_num))]
    omega
  have hfold : foldDigits (natDigitsBE 13 x) = x := by
    rw [foldDigits_natDigitsBE]
    exact Nat.mod_eq_of_lt (lt_of_lt_of_le hlt63 (by norm_num))
  have htsid : tsid_from_string (entity_id_to_string x) = some (x : Int) := by
    rw [tsid_from_string_some _ _ hlen hctd, if_neg (by omega), hfold, if_neg (by omega)]
  rw [entity_id_from_string_some _ _ htsid, if_neg ?hg]
  · simp
  case hg =>
    push_neg
    refine ⟨by positivity, ?_⟩
    exact_mod_cast h

theorem entityIdValidate_ok_iff (s : String) (n : Nat) :
    entityIdValidate s = Except.ok n ↔
      s.length = 13 ∧ tsidRawValue s = some n ∧ n ≤ maxInt64 := by
  unfold entityIdValidate
  by_cases hshort : s.length < 13
  · rw [if_pos hshort]
    constructor
    · intro h; exact absurd h (by simp)
    · intro h; omega
  · rw [if_neg hshort]
    by_cases hlong : 13 < s.length
    · rw [if_pos hlong]
      constructor
      · intro h; exact absurd h (by simp)
      · intro h; omega
    · rw [if_neg hlong]
      have hlen : s.length = 13 := by omega
      have hdlen : s.data.length = 13 := hlen
      cases hctd : charsToDigits s.data with
      | none =>
          rw [entity_id_from_string_none s (tsid_from_string_none s hdlen hctd)]
          simp [tsidRawValue, hctd]
      | some ds =>
          have hdslen : ds.length = 13 := by rw [charsToDigits_length s.data ds hctd, hdlen]
          have hdslt : ∀ d ∈ ds, d < 32 := charsToDigits_lt s.data ds hctd
          obtain ⟨d0, tail, rfl⟩ : ∃ d0 tail, ds = d0 :: tail := by
            cases ds with
            | nil => simp at hdslen
            | cons a l => exact ⟨a, l, rfl⟩
          have htlen : tail.length = 12 := by simpa using hdslen
          have htaillt : ∀ d ∈ tail, d < 32 := fun d hd => hdslt d (by simp [hd])
          have hraw : tsidRawValue s = some (foldDigits (d0 :: tail)) := by
            simp [tsidRawValue, hctd]
          have hlow : d0 * 2 ^ 60 ≤ foldDigits (d0 :: tail) := by
            have hg := foldDigits_ge_head d0 tail
            rw [htlen] at hg
            calc d0 * 2 ^ 60 = d0 * 32 ^ 12 := by norm_num
              _ ≤ _ := hg
          have hhigh : foldDigits (d0 :: tail) < (d0 + 1) * 2 ^ 60 := by
            have hu := foldDigits_lt_head d0 tail htaillt
            rw [htlen] at hu
            calc foldDigits (d0 :: tail) < (d0 + 1) * 32 ^ 12 := hu
              _ = (d0 + 1) * 2 ^ 60 := by norm_num
          have heq := tsid_from_string_some s (d0 :: tail) hdlen hctd
          simp only [List.headD_cons] at heq
          by_cases hbig : 16 ≤ d0
          · rw [if_pos hbig] at heq
            rw [entity_id_from_string_none s heq]
            have hge : 2 ^ 64 ≤ foldDigits (d0 :: tail) := by
              have h16 : 16 * 2 ^ 60 ≤ d0 * 2 ^ 60 := Nat.mul_le_mul_right _ hbig
              omega
            have hmax : maxInt64 < 2 ^ 64 := by norm_num [maxInt64]
            constructor
            · intro hh; exact absurd hh (by simp)
            · rintro ⟨_, h1, h2⟩
              rw [hraw] at h1
              simp only [Option.some.injEq] at h1
              omega
          · rw [if_neg hbig] at heq
            have hlt64 : foldDigits (d0 :: tail) < 2 ^ 64 := by
              have hle : (d0 + 1) * 2 ^ 60 ≤ 16 * 2 ^ 60 := Nat.mul_le_mul_right _ (by omega)
              omega
            by_cases hsig : 2 ^ 63 ≤ foldDigits (d0 :: tail)
            · rw [if_pos hsig] at heq
              have hneg : ((foldDigits (d0 :: tail) : Int) - 2 ^ 64) < 0 := by
                have hc : (foldDigits (d0 :: tail) : Int) < 2 ^ 64 := by exact_mod_cast hlt64
                omega
              have hcond : ((foldDigits (d0 :: tail) : Int) - 2 ^ 64) < 0
                  ∨ (maxInt64 : Int) < (foldDigits (d0 :: tail) : Int) - 2 ^ 64 :=
                Or.inl hneg
              rw [entity_id_from_string_some s _ heq, if_pos hcond]
              have hmax : maxInt64 < 2 ^ 63 := by norm_num [maxInt64]
              constructor
              · intro hh; exact absurd hh (by simp)
              · rintro ⟨_, h1, h2⟩
                rw [hraw] at h1
                simp only [Option.some.injEq] at h1
                omega
            · rw [if_neg hsig] at heq
              have hle : foldDigits (d0 :: tail) ≤ maxInt64 := by
                have hm : maxInt64 = 2 ^ 63 - 1 := rfl
                omega
              have hcond : ¬ ((foldDigits (d0 :: tail) : Int) < 0
                  ∨ (maxInt64 : Int) < (foldDigits (d0 :: tail) : Int)) := by
                push_neg
                refine ⟨by positivity, ?_⟩
                exact_mod_cast hle
              rw [entity_id_from_string_some s _ heq, if_neg hcond]
              simp only [Int.toNat_natCast, Except.ok.injEq, hlen, true_and, hraw,
                Option.some.injEq]
              constructor
              · intro hh; subst hh; exact ⟨rfl, hle⟩
              · rintro ⟨h1, _⟩; exact h1

end Lucky

namespace Lucky

/-! ## Claim C1: codec round trip -/

/-- C1: for every integer x in [0, max_int64], decoding the encoded string
gives back x: entity_id_from_string (entity_id_to_string x) = x. -/
theorem C1_entity_id_roundtrip (x : Nat) (h : x ≤ maxInt64) :
    entity_id_from_string (entity_id_to_string x) = Except.ok x :=
  tsid_roundtrip x h

theorem C1_entity_id_roundtrip_witness :
    687074410262059062 ≤ maxInt64
      ∧ entity_id_from_string (entity_id_to_string 687074410262059062)
          = Except.ok 687074410262059062 :=
  ⟨by decide, C1_entity_id_roundtrip 687074410262059062 (by decide)⟩

/-- The repository's own codec test vector (tests/test_models.py):
687074410262059062 renders as "0K27TH4PYWP1P" and decodes back. -/
theorem tsid_test_vector :
    entity_id_to_string 687074410262059062 = "0K27TH4PYWP1P"
      ∧ entity_id_from_string "0K27TH4PYWP1P" = Except.ok 687074410262059062
      ∧ entity_id_from_string "aaaaaaaaaaaaa" = Except.error "invalid string" := by
  refine ⟨by decide, by decide, by decide⟩

/-! ## Claim C2: strict decoding -/

/-- C2: identifier decoding is strict.  A string is accepted by the EntityId
validation exactly when it has exactly 13 characters, every character is a
valid base-32 digit, and its base-32 value is at most max_int64; every other
string is rejected with a validation error value (the ValErr codomain),
never a server error. -/
theorem C2_entity_id_validation_strict (s : String) (n : Nat) :
    entityIdValidate s = Except.ok n ↔
      s.length = 13 ∧ tsidRawValue s = some n ∧ n ≤ maxInt64 :=
  entityIdValidate_ok_iff s n

theorem C2_entity_id_validation_strict_witness :
    entityIdValidate "0K27TH4PYWP1P" = Except.ok 687074410262059062
      ∧ ¬ entityIdValidate "aaaaaaaaaaaaa" = Except.ok 11529215046068469770 :=
  ⟨(C2_entity_id_validation_strict "0K27TH4PYWP1P" 687074410262059062).mpr
      ⟨by decide, by decide, by decide⟩,
   fun h => by
     have h2 := (C2_entity_id_validation_strict "aaaaaaaaaaaaa" 11529215046068469770).mp h
     exact absurd h2.2.2 (by decide)⟩

/-! ## Claim C3: conflict translation in save -/

/-- C3: save raises EntityExistsError with message '<entity> exists' (the
lowercased entity class name) exactly when the storage failure is an
IntegrityError whose message reports a unique-constraint violation (the
SQLite message for the unique columns name / content / tag matches); every
other storage exception propagates unchanged. -/
theorem C3_save_conflict_translation (className : String) (self : Rec)
    (sess : DbSession) (t nid : Nat) :
    (∀ (outcome : CommitOutcome) (msg : String),
        (save className self sess outcome t nid).1 = Except.error (PyExc.entityExists msg)
          ↔ ∃ orig, outcome = CommitOutcome.failure (StorageExc.integrityError orig)
              ∧ matchesUniquePattern orig = true
              ∧ msg = strToLower className ++ " exists")
    ∧ (∀ e : StorageExc, isUniqueExc e = false →
        (save className self sess (CommitOutcome.failure e) t nid).1
          = Except.error e.toPyExc)
    ∧ (∀ tb : Tbl, matchesUniquePattern (uniqueErrMsg tb) = true) := by
  refine ⟨?_, ?_, ?_⟩
  · intro outcome msg
    cases outcome with
    | success => simp [save]
    | failure e =>
        cases e with
        | integrityError orig =>
            by_cases hm : matchesUniquePattern orig
            · simp only [save, hm, if_true]
              constructor
              · intro h
                simp only [Except.error.injEq, PyExc.entityExists.injEq] at h
                exact ⟨orig, rfl, hm, h.symm⟩
              · rintro ⟨orig2, heq, _, hmsg⟩
                simp only [CommitOutcome.failure.injEq, StorageExc.integrityError.injEq] at heq
                subst hmsg
                rfl
            · simp only [save, hm, if_false, StorageExc.toPyExc]
              constructor
              · intro h
                simp at h
              · rintro ⟨orig2, heq, hm2, _⟩
                simp only [CommitOutcome.failure.injEq, StorageExc.integrityError.injEq] at heq
                subst heq
                exact absurd hm2 (by simp [hm])
        | otherError m =>
            simp [save, StorageExc.toPyExc]
  · intro e he
    cases e with
    | integrityError orig =>
        have hm : matchesUniquePattern orig = false := by simpa [isUniqueExc] using he
        simp [save, hm, StorageExc.toPyExc]
    | otherError m => simp [save, StorageExc.toPyExc]
  · intro tb
    cases tb <;> decide

theorem C3_save_conflict_translation_witness :
    (save "Fortune" {} {} (CommitOutcome.failure
        (StorageExc.integrityError "UNIQUE constraint failed: fortunes.content")) 0 1).1
      = Except.error (PyExc.entityExists "fortune exists")
    ∧ (save "Fortune" {} {} (CommitOutcome.failure
        (StorageExc.otherError "Python int too large to convert to SQLite INTEGER")) 0 1).1
      = Except.error (PyExc.otherError "Python int too large to convert to SQLite INTEGER") := by
  constructor
  · exact ((C3_save_conflict_translation "Fortune" {} {} 0 1).1 _ _).mpr
      ⟨"UNIQUE constraint failed: fortunes.content", rfl, by decide, by decide⟩
  · exact (C3_save_conflict_translation "Fortune" {} {} 0 1).2.1 _ (by decide)

/-! ## Claim C10: rollback before raising the conflict -/

/-- C10: when save detects a unique-constraint violation it rolls the
session back before raising EntityExistsError: the committed store is
unchanged and no pending state remains in the session. -/
theorem C10_save_conflict_rolls_back (className : String) (self : Rec)
    (sess : DbSession) (t nid : Nat) (orig : String)
    (h : matchesUniquePattern orig = true) :
    save className self sess (CommitOutcome.failure (StorageExc.integrityError orig)) t nid
      = (Except.error (PyExc.entityExists (strToLower className ++ " exists")),
         { committed := sess.committed, pending := [] }) := by
  simp [save, h]

theorem C10_save_conflict_rolls_back_witness :
    save "Author" { attrs := [("name", "x")] }
        { committed := [{ id := some 1, attrs := [("name", "x")] }], pending := [] }
        (CommitOutcome.failure
          (StorageExc.integrityError "UNIQUE constraint failed: authors.name")) 3 7
      = (Except.error (PyExc.entityExists "author exists"),
         { committed := [{ id := some 1, attrs := [("name", "x")] }], pending := [] }) := by
  rw [C10_save_conflict_rolls_back _ _ _ _ _ _ (by decide)]
  decide

/-! ## Claim C7: get-or-create -/

/-- C7: new_or_existing returns the unique existing entity matching all the
criteria when one exists (an entity of the store satisfying every
criterion), and otherwise a newly constructed, unpersisted entity (no id, no
timestamps) carrying exactly the criteria as its fields; being a plain
SELECT it persists nothing. -/
theorem C7_new_or_existing (store : List Rec) (criteria : List (String × String)) :
    (store.filter (matchesCriteria criteria) = [] →
        new_or_existing store criteria
          = Except.ok { id := none, attrs := criteria,
                        created_at := none, updated_at := none })
    ∧ (∀ r, store.filter (matchesCriteria criteria) = [r] →
        new_or_existing store criteria = Except.ok r
          ∧ r ∈ store ∧ matchesCriteria criteria r = true) := by
  constructor
  · intro h
    simp [new_or_existing, h]
  · intro r h
    have hmem : r ∈ store.filter (matchesCriteria criteria) := by simp [h]
    refine ⟨by simp [new_or_existing, h], List.mem_of_mem_filter hmem,
      List.of_mem_filter hmem⟩

theorem C7_new_or_existing_witness :
    new_or_existing ([{ id := some 1, attrs := [("name", "a")], created_at := some 0 }])
        [("name", "b")]
      = Except.ok { id := none, attrs := [("name", "b")] }
    ∧ new_or_existing ([{ id := some 1, attrs := [("name", "a")], created_at := some 0 }])
        [("name", "a")]
      = Except.ok { id := some 1, attrs := [("name", "a")], created_at := some 0 } := by
  constructor
  · exact (C7_new_or_existing _ _).1 (by decide)
  · exact ((C7_new_or_existing _ _).2 _ (by decide)).1

/-! ## Claim C6: empty patch rejected before the store -/

/-- C6: a PATCH /api/fortunes/{id} whose body provides none of author, tags
and content is rejected by validation as HTTP 422 with a message containing
'all attributes are missing', before any store access (the database is
untouched and the handler never runs). -/
theorem C6_empty_patch_rejected (t : Nat) (db : LuckyDB) (rawId : String) :
    (patchFortuneEndpoint t db rawId
        { author := none, tags := none, content := none }).1.status = 422
    ∧ "Value error, all attributes are missing"
        ∈ (patchFortuneEndpoint t db rawId
            { author := none, tags := none, content := none }).1.detail
    ∧ (patchFortuneEndpoint t db rawId
        { author := none, tags := none, content := none }).2 = (db, false) := by
  have hv : validateFortunePatch { author := none, tags := none, content := none }
      = Except.error ["Value error, all attributes are missing"] := rfl
  cases h : entityIdValidate rawId with
  | ok n => simp [patchFortuneEndpoint, h, hv]
  | error e =>
      cases e with
      | stringTooShort => simp [patchFortuneEndpoint, h, hv]
      | stringTooLong => simp [patchFortuneEndpoint, h, hv]
      | valueError m => simp [patchFortuneEndpoint, h, hv]

end Lucky

namespace Lucky

/-! ## Claim C5: bounded retry with exponential backoff -/

theorem retryLoop_attempts_le (body : LuckyDB → Except PyExc Rec × LuckyDB) :
    ∀ (fuel k : Nat) (db : LuckyDB), k ≤ 4 →
      (retryLoop body k fuel db).2.2.1 ≤ 4 := by
  intro fuel
  induction fuel with
  | zero => intro k db hk; simpa [retryLoop] using hk
  | succ fuel ih =>
      intro k db hk
      unfold retryLoop
      cases hb : body db with
      | mk r db2 =>
          cases r with
          | ok a => simpa using hk
          | error e =>
              by_cases h4 : 4 ≤ k
              · simpa [h4] using hk
              · simp only [h4, if_false]
                exact ih (k + 1) db2 (by omega)

/-- C5: the retry wrapper performs at most 4 total attempts; when every
attempt fails, the waits between attempts are the exponential backoff
100 ms, 200 ms, 400 ms (starting at 100 ms) and the failure of the fourth
and last attempt is re-raised unchanged, the loop terminating. -/
theorem C5_retry_bounded_backoff (body : LuckyDB → Except PyExc Rec × LuckyDB)
    (db : LuckyDB) (h : ∀ d, ∃ e, (body d).1 = Except.error e) :
    (retryCall body db).2.2.1 ≤ 4
    ∧ retryCall body db
        = ((body (body (body (body db).2).2).2).1,
           (body (body (body (body db).2).2).2).2, 4,
           [100, 200, 400]) := by
  constructor
  · exact retryLoop_attempts_le body 4 1 db (by omega)
  · obtain ⟨e1, h1⟩ := h db
    obtain ⟨e2, h2⟩ := h (body db).2
    obtain ⟨e3, h3⟩ := h (body (body db).2).2
    obtain ⟨e4, h4⟩ := h (body (body (body db).2).2).2
    have hb1 : body db = (Except.error e1, (body db).2) := by rw [← h1]
    have hb2 : body (body db).2 = (Except.error e2, (body (body db).2).2) := by rw [← h2]
    have hb3 : body (body (body db).2).2
        = (Except.error e3, (body (body (body db).2).2).2) := by rw [← h3]
    have hb4 : body (body (body (body db).2).2).2
        = (Except.error e4, (body (body (body (body db).2).2).2).2) := by rw [← h4]
    have hw1 : waitMs 1 = 100 := by decide
    have hw2 : waitMs 2 = 200 := by decide
    have hw3 : waitMs 3 = 400 := by decide
    calc retryCall body db = retryLoop body 1 4 db := rfl
      _ = ((body (body (body (body db).2).2).2).1,
           (body (body (body (body db).2).2).2).2, 4, [100, 200, 400]) := by
          rw [retryLoop, hb1]
          simp only [show ¬ (4 ≤ 1) by omega, if_false]
          rw [retryLoop, hb2]
          simp only [show ¬ (4 ≤ 2) by omega, if_false]
          rw [retryLoop, hb3]
          simp only [show ¬ (4 ≤ 3) by omega, if_false]
          rw [retryLoop, hb4]
          simp only [show (4 ≤ 4) by omega, if_true, hw1, hw2, hw3]

theorem C5_retry_bounded_backoff_witness :
    (∀ d : LuckyDB, ∃ e, ((fun _ : LuckyDB =>
        ((Except.error (PyExc.integrityError "database is locked") : Except PyExc Rec),
         ({} : LuckyDB))) d).1 = Except.error e)
    ∧ (retryCall (fun _ : LuckyDB =>
        ((Except.error (PyExc.integrityError "database is locked") : Except PyExc Rec),
         ({} : LuckyDB))) {}).2.2.1 ≤ 4 := by
  have hyp : ∀ d : LuckyDB, ∃ e, ((fun _ : LuckyDB =>
      ((Except.error (PyExc.integrityError "database is locked") : Except PyExc Rec),
       ({} : LuckyDB))) d).1 = Except.error e :=
    fun _ => ⟨PyExc.integrityError "database is locked", rfl⟩
  exact ⟨hyp, (C5_retry_bounded_backoff _ {} hyp).1⟩

/-! ## Claim C4: conflicts are in fact retried (claim corrected) -/

/-- C4 as stated is false on the code: with a fortune of identical content
already stored, the very first create attempt raises the conflict
(EntityExistsError 'fortune exists'), yet the retry wrapper does not stop
there: it performs 4 attempts, not 1, before surfacing it. -/
theorem C4_conflict_retried_counterexample :
    (create_fortune_once 5
        (create_fortune_once 5 {} { author := "a", tags := [], content := "c" }).2
        { author := "a", tags := [], content := "c" }).1
      = Except.error (PyExc.entityExists "fortune exists")
    ∧ (retryCall
        (fun d => create_fortune_once 5 d { author := "a", tags := [], content := "c" })
        (create_fortune_once 5 {} { author := "a", tags := [], content := "c" }).2).2.2.1
        = 4
    ∧ ¬ (retryCall
        (fun d => create_fortune_once 5 d { author := "a", tags := [], content := "c" })
        (create_fortune_once 5 {} { author := "a", tags := [], content := "c" }).2).2.2.1
        = 1 := by
  refine ⟨by decide, by decide, by decide⟩

/-- C4 amended: a uniqueness conflict raised by a create or patch attempt is
retried like any other failure - the wrapper re-runs the whole
get-or-create-then-save body on the unchanged database, 4 total attempts,
and only after the fourth surfaces the EntityExistsError, which the session
boundary then maps to HTTP 409 with the conflict message. -/
theorem C4_conflict_retried_then_409
    (body : LuckyDB → Except PyExc Rec × LuckyDB) (db : LuckyDB) (msg : String)
    (h : body db = (Except.error (PyExc.entityExists msg), db)) :
    retryCall body db
      = (Except.error (PyExc.entityExists msg), db, 4, [100, 200, 400])
    ∧ httpOf (retryCall body db).1
        = { status := 409, detail := [msg], body := none } := by
  have hw1 : waitMs 1 = 100 := by decide
  have hw2 : waitMs 2 = 200 := by decide
  have hw3 : waitMs 3 = 400 := by decide
  have hmain : retryCall body db
      = (Except.error (PyExc.entityExists msg), db, 4, [100, 200, 400]) := by
    calc retryCall body db = retryLoop body 1 4 db := rfl
      _ = _ := by
        rw [retryLoop, h]
        simp only [show ¬ (4 ≤ 1) by omega, if_false]
        rw [retryLoop, h]
        simp only [show ¬ (4 ≤ 2) by omega, if_false]
        rw [retryLoop, h]
        simp only [show ¬ (4 ≤ 3) by omega, if_false]
        rw [retryLoop, h]
        simp only [show (4 ≤ 4) by omega, if_true, hw1, hw2, hw3]
  refine ⟨hmain, ?_⟩
  rw [hmain]
  rfl

theorem C4_conflict_retried_then_409_witness :
    (fun d => create_fortune_once 5 d { author := "a", tags := [], content := "c" })
        (create_fortune_once 5 {} { author := "a", tags := [], content := "c" }).2
      = (Except.error (PyExc.entityExists "fortune exists"),
         (create_fortune_once 5 {} { author := "a", tags := [], content := "c" }).2)
    ∧ retryCall
        (fun d => create_fortune_once 5 d { author := "a", tags := [], content := "c" })
        (create_fortune_once 5 {} { author := "a", tags := [], content := "c" }).2
      = (Except.error (PyExc.entityExists "fortune exists"),
         (create_fortune_once 5 {} { author := "a", tags := [], content := "c" }).2,
         4, [100, 200, 400]) := by
  have h : (fun d => create_fortune_once 5 d { author := "a", tags := [], content := "c" })
        (create_fortune_once 5 {} { author := "a", tags := [], content := "c" }).2
      = (Except.error (PyExc.entityExists "fortune exists"),
         (create_fortune_once 5 {} { author := "a", tags := [], content := "c" }).2) := by
    decide
  exact ⟨h, (C4_conflict_retried_then_409 _ _ _ h).1⟩

end Lucky

namespace Lucky

/-! ## Claim C9: select returns all rows in insertion order -/

/-- C9: Base.select returns all persisted rows of the type (a permutation of
the table's contents), and because entity ids are time-sortable and so
increase along the insertion sequence, the id-ordered scan lists the rows
exactly in insertion order. -/
theorem C9_select_insertion_order (store : List Rec) :
    (selectRows store).Perm store
    ∧ (store.Pairwise (fun a b => a.id.getD 0 < b.id.getD 0) →
        selectRows store = store) := by
  constructor
  · exact List.perm_insertionSort _ store
  · intro h
    have hs : store.Sorted (fun a b => a.id.getD 0 ≤ b.id.getD 0) :=
      h.imp (fun hab => Nat.le_of_lt hab)
    exact hs.insertionSort_eq

theorem C9_select_insertion_order_witness :
    ([({ id := some 3, attrs := [("content", "x")] } : Rec),
      { id := some 8, attrs := [("content", "y")] }].Pairwise
        (fun a b => a.id.getD 0 < b.id.getD 0))
    ∧ selectRows
        [({ id := some 3, attrs := [("content", "x")] } : Rec),
         { id := some 8, attrs := [("content", "y")] }]
      = [({ id := some 3, attrs := [("content", "x")] } : Rec),
         { id := some 8, attrs := [("content", "y")] }] := by
  have hp : ([({ id := some 3, attrs := [("content", "x")] } : Rec),
      { id := some 8, attrs := [("content", "y")] }].Pairwise
        (fun a b => a.id.getD 0 < b.id.getD 0)) := by
    simp [List.pairwise_cons]
  exact ⟨hp, (C9_select_insertion_order _).2 hp⟩

/-! ## Supporting lemmas for claim C8 -/

theorem applyPend_snoc (t : Nat) (x : Tbl × Rec) :
    ∀ (pre : List (Tbl × Rec)) (db : LuckyDB),
      applyPend t db (pre ++ [x])
        = match applyPend t db pre with
          | Except.error m => Except.error m
          | Except.ok res =>
              match applyOne t res.1 x with
              | Except.error m => Except.error m
              | Except.ok step => Except.ok (step.1, res.2 ++ [step.2]) := by
  intro pre
  induction pre with
  | nil =>
      intro db
      simp only [List.nil_append, applyPend]
  | cons y pre ih =>
      intro db
      simp only [List.cons_append, applyPend, List.append_eq]
      split
      all_goals try rfl
      rename_i step heq
      rw [ih step.1]
      cases h2 : applyPend t step.1 pre with
      | error m => simp
      | ok res =>
          cases h3 : applyOne t res.1 x with
          | error m => simp [h3]
          | ok step2 => simp [h3]

theorem applyOne_preserves_fortunes (t : Nat) (db : LuckyDB) (y : Tbl × Rec)
    (res : LuckyDB × Rec) (hy : y.1 ≠ Tbl.fortunes)
    (h : applyOne t db y = Except.ok res) : res.1.fortunes = db.fortunes := by
  unfold applyOne at h
  by_cases hv : violatesUnique y.1 (db.table y.1) y.2
  · rw [if_pos hv] at h
    exact absurd h (by simp)
  · rw [if_neg hv] at h
    simp only [Except.ok.injEq] at h
    subst h
    cases htb : y.1 with
    | authors => by_cases hid : y.2.id.isNone <;> simp [htb, LuckyDB.setTable, hid]
    | tags => by_cases hid : y.2.id.isNone <;> simp [htb, LuckyDB.setTable, hid]
    | fortunes => exact absurd htb hy

theorem applyPend_preserves_fortunes (t : Nat) :
    ∀ (pre : List (Tbl × Rec)) (db : LuckyDB) (res : LuckyDB × List Rec),
      (∀ y ∈ pre, y.1 ≠ Tbl.fortunes) →
      applyPend t db pre = Except.ok res → res.1.fortunes = db.fortunes := by
  intro pre
  induction pre with
  | nil =>
      intro db res _ h
      simp only [applyPend, Except.ok.injEq] at h
      rw [← h]
  | cons y pre ih =>
      intro db res hy h
      simp only [applyPend] at h
      cases h1 : applyOne t db y with
      | error m => simp [h1] at h
      | ok step =>
          simp only [h1] at h
          cases h2 : applyPend t step.1 pre with
          | error m => simp [h2] at h
          | ok res2 =>
              simp only [h2, Except.ok.injEq] at h
              have hf1 : step.1.fortunes = db.fortunes :=
                applyOne_preserves_fortunes t db y step (hy y (by simp)) h1
              have hf2 : res2.1.fortunes = step.1.fortunes :=
                ih step.1 res2 (fun z hz => hy z (by simp [hz])) h2
              rw [← h]
              simp [hf2, hf1]

theorem saveLucky_ok_iff (className : String) (t : Nat) (db : LuckyDB)
    (pend : List (Tbl × Rec)) (self : Rec) (x : Rec) (db2 : LuckyDB) :
    saveLucky className t db pend self = (Except.ok x, db2) ↔
      ∃ res, applyPend t db pend = Except.ok res
        ∧ res.2.getLastD self = x ∧ res.1 = db2 := by
  unfold saveLucky
  cases h : applyPend t db pend with
  | error m =>
      by_cases hm : matchesUniquePattern m
      · simp [hm]
      · simp [hm]
  | ok res =>
      constructor
      · intro hh
        simp only [Prod.mk.injEq, Except.ok.injEq] at hh
        exact ⟨res, rfl, hh.1, hh.2⟩
      · rintro ⟨res2, hres, hlast, hdb⟩
        simp only [Except.ok.injEq] at hres
        subst hres
        simp only [Prod.mk.injEq, Except.ok.injEq]
        exact ⟨hlast, hdb⟩

theorem setAttr_id (r : Rec) (a v : String) : (setAttr r a v).id = r.id := rfl

theorem setAttr_created_at (r : Rec) (a v : String) :
    (setAttr r a v).created_at = r.created_at := rfl

theorem setAttr_updated_at (r : Rec) (a v : String) :
    (setAttr r a v).updated_at = r.updated_at := rfl

end Lucky

namespace Lucky

theorem saveLucky_update_shape (t : Nat) (db : LuckyDB) (pre : List (Tbl × Rec))
    (f2 : Rec) (i : Nat) (x : Rec) (db2 : LuckyDB)
    (hpre : ∀ y ∈ pre, y.1 ≠ Tbl.fortunes)
    (hid : f2.id = some i)
    (hany : db.fortunes.any (fun c => c.id == some i) = true)
    (h : saveLucky "Fortune" t db (pre ++ [(Tbl.fortunes, f2)]) f2
          = (Except.ok x, db2)) :
    x = { f2 with updated_at := some t } := by
  obtain ⟨res, hres, hlast, hdb⟩ :=
    (saveLucky_ok_iff "Fortune" t db (pre ++ [(Tbl.fortunes, f2)]) f2 x db2).mp h
  rw [applyPend_snoc] at hres
  cases h1 : applyPend t db pre with
  | error m => rw [h1] at hres; exact absurd hres (by simp)
  | ok res1 =>
      rw [h1] at hres
      simp only at hres
      cases h2 : applyOne t res1.1 (Tbl.fortunes, f2) with
      | error m => rw [h2] at hres; exact absurd hres (by simp)
      | ok step =>
          rw [h2] at hres
          simp only [Except.ok.injEq] at hres
          have hfort : res1.1.fortunes = db.fortunes :=
            applyPend_preserves_fortunes t pre db res1 hpre h1
          have hstep : step.2 = { f2 with updated_at := some t } := by
            unfold applyOne at h2
            by_cases hv : violatesUnique Tbl.fortunes (res1.1.table Tbl.fortunes) f2
            · rw [if_pos hv] at h2; exact absurd h2 (by simp)
            · rw [if_neg hv] at h2
              simp only [Except.ok.injEq] at h2
              have htab : res1.1.table Tbl.fortunes = db.fortunes := hfort
              have hins : insertOrUpdate t res1.1.nextId (res1.1.table Tbl.fortunes) f2
                  = ((db.fortunes).map
                      (fun c => if c.id == some i then { f2 with updated_at := some t } else c),
                     { f2 with updated_at := some t }) := by
                unfold insertOrUpdate
                rw [hid, htab]
                simp [hany]
              rw [← h2]
              rw [hins]
          subst hres
          rw [← hlast, List.getLastD_concat]
          exact hstep

theorem saveLucky_insert_shape (t : Nat) (db : LuckyDB) (pre : List (Tbl × Rec))
    (f2 : Rec) (x : Rec) (db2 : LuckyDB)
    (hid : f2.id = none)
    (h : saveLucky "Fortune" t db (pre ++ [(Tbl.fortunes, f2)]) f2
          = (Except.ok x, db2)) :
    ∃ nid, x = { f2 with id := some nid, created_at := some (f2.created_at.getD t) } := by
  obtain ⟨res, hres, hlast, hdb⟩ :=
    (saveLucky_ok_iff "Fortune" t db (pre ++ [(Tbl.fortunes, f2)]) f2 x db2).mp h
  rw [applyPend_snoc] at hres
  cases h1 : applyPend t db pre with
  | error m => rw [h1] at hres; exact absurd hres (by simp)
  | ok res1 =>
      rw [h1] at hres
      simp only at hres
      cases h2 : applyOne t res1.1 (Tbl.fortunes, f2) with
      | error m => rw [h2] at hres; exact absurd hres (by simp)
      | ok step =>
          rw [h2] at hres
          simp only [Except.ok.injEq] at hres
          refine ⟨res1.1.nextId, ?_⟩
          have hstep : step.2
              = { f2 with id := some res1.1.nextId,
                          created_at := some (f2.created_at.getD t) } := by
            unfold applyOne at h2
            by_cases hv : violatesUnique Tbl.fortunes (res1.1.table Tbl.fortunes) f2
            · rw [if_pos hv] at h2; exact absurd h2 (by simp)
            · rw [if_neg hv] at h2
              simp only [Except.ok.injEq] at h2
              have hins : insertOrUpdate t res1.1.nextId (res1.1.table Tbl.fortunes) f2
                  = (res1.1.table Tbl.fortunes
                      ++ [{ f2 with id := some res1.1.nextId, created_at := some (f2.created_at.getD t) }],
                     { f2 with id := some res1.1.nextId, created_at := some (f2.created_at.getD t) }) := by
                unfold insertOrUpdate
                rw [hid]
              rw [← h2, hins]
          subst hres
          rw [← hlast, List.getLastD_concat]
          exact hstep

end Lucky

namespace Lucky

theorem patchedFortune_id (fortune : Rec) (authorOpt : Option Rec) (p : FortunePatch) :
    (patchedFortune fortune authorOpt p).id = fortune.id := by
  unfold patchedFortune
  cases authorOpt with
  | none => by_cases hc : truthy p.content <;> simp [hc, setAttr]
  | some a => by_cases hc : truthy p.content <;> simp [hc, setAttr]

theorem patchedFortune_created_at (fortune : Rec) (authorOpt : Option Rec)
    (p : FortunePatch) :
    (patchedFortune fortune authorOpt p).created_at = fortune.created_at := by
  unfold patchedFortune
  cases authorOpt with
  | none => by_cases hc : truthy p.content <;> simp [hc, setAttr]
  | some a => by_cases hc : truthy p.content <;> simp [hc, setAttr]

theorem pendingOf_not_fortunes (authorOpt : Option Rec) (tagsOpt : Option (List Rec)) :
    ∀ y ∈ pendingOf authorOpt tagsOpt, y.1 ≠ Tbl.fortunes := by
  intro y hy
  unfold pendingOf at hy
  rcases List.mem_append.mp hy with hy1 | hy2
  · cases authorOpt with
    | none => simp at hy1
    | some a =>
        by_cases hid : a.id.isNone
        · simp only [hid, if_true] at hy1
          simp only [List.mem_singleton] at hy1
          subst hy1
          simp
        · simp [hid] at hy1
  · cases tagsOpt with
    | none => simp at hy2
    | some rs =>
        simp only [List.mem_map] at hy2
        obtain ⟨r, _, hr⟩ := hy2
        subst hr
        simp

/-- C8 (amended): after every successful PATCH of a fortune the row's
updated_at is present, stamped with the update's clock tick, while
created_at is carried over unchanged from the stored row - so updated_at is
at least created_at when the clock is monotone, and strictly later exactly
when the patch happens at a strictly later tick than the insert; before the
first update (at creation) updated_at is null. -/
theorem C8_patch_timestamps (t : Nat) (db : LuckyDB) :
    (∀ (fid : Nat) (p : FortunePatch) (x : Rec) (db2 : LuckyDB),
        patch_fortune_once t db fid p = (Except.ok x, db2) →
          x.updated_at = some t
          ∧ ∃ f, db.fortunes.find? (fun r => r.id == some fid) = some f
              ∧ x.created_at = f.created_at)
    ∧ (∀ (inp : FortuneIn) (y : Rec) (db1 : LuckyDB),
        create_fortune_once t db inp = (Except.ok y, db1) →
          y.updated_at = none ∧ y.created_at = some t) := by
  constructor
  · intro fid p x db2 h
    cases hf : db.fortunes.find? (fun r => r.id == some fid) with
    | none => simp [patch_fortune_once, hf] at h
    | some f =>
        simp only [patch_fortune_once, hf] at h
        cases ha : (if truthy p.author then
            (new_or_existing db.authors [("name", p.author.getD "")]).map some
          else Except.ok none) with
        | error e => simp [ha] at h
        | ok authorOpt =>
            simp only [ha] at h
            cases htg : (match p.tags with
                | some ts => (resolveTags db.tags ts).map some
                | none => Except.ok none) with
            | error e => simp [htg] at h
            | ok tagsOpt =>
                simp only [htg] at h
                have hfmem : f ∈ db.fortunes := List.mem_of_find?_eq_some hf
                have hfidb := List.find?_some hf
                have hfid : f.id = some fid := by simpa using hfidb
                have hany : db.fortunes.any (fun c => c.id == some fid) = true :=
                  List.any_eq_true.mpr ⟨f, hfmem, by simp [hfid]⟩
                have hx := saveLucky_update_shape t db (pendingOf authorOpt tagsOpt)
                  (patchedFortune f authorOpt p) fid x db2
                  (pendingOf_not_fortunes authorOpt tagsOpt)
                  (by rw [patchedFortune_id]; exact hfid) hany h
                refine ⟨by rw [hx], f, rfl, ?_⟩
                rw [hx]
                simpa using patchedFortune_created_at f authorOpt p
  · intro inp y db1 h
    simp only [create_fortune_once] at h
    cases ha : new_or_existing db.authors [("name", inp.author)] with
    | error e => simp [ha] at h
    | ok author =>
        simp only [ha] at h
        cases htg : resolveTags db.tags inp.tags with
        | error e => simp [htg] at h
        | ok tagRecs =>
            simp only [htg] at h
            obtain ⟨nid, hx⟩ := saveLucky_insert_shape t db
              (pendingOf (some author) (some tagRecs))
              { id := none,
                attrs := [("content", inp.content), ("author_name", inp.author)],
                created_at := none, updated_at := none } y db1 rfl h
            constructor
            · simp [hx]
            · simp [hx]

theorem C8_patch_timestamps_witness :
    patch_fortune_once 7
        (create_fortune_once 5 {} { author := "a", tags := [], content := "c" }).2 2
        { author := none, tags := none, content := some "d" }
      = (Except.ok { id := some 2, attrs := [("content", "d"), ("author_name", "a")],
                     created_at := some 5, updated_at := some 7 },
         { authors := [{ id := some 1, attrs := [("name", "a")], created_at := some 5 }],
           tags := [],
           fortunes := [{ id := some 2, attrs := [("content", "d"), ("author_name", "a")],
                          created_at := some 5, updated_at := some 7 }],
           nextId := 3 })
    ∧ ({ id := some 2, attrs := [("content", "d"), ("author_name", "a")],
         created_at := some 5, updated_at := some 7 } : Rec).updated_at = some 7 := by
  have h : patch_fortune_once 7
        (create_fortune_once 5 {} { author := "a", tags := [], content := "c" }).2 2
        { author := none, tags := none, content := some "d" }
      = (Except.ok { id := some 2, attrs := [("content", "d"), ("author_name", "a")],
                     created_at := some 5, updated_at := some 7 },
         { authors := [{ id := some 1, attrs := [("name", "a")], created_at := some 5 }],
           tags := [],
           fortunes := [{ id := some 2, attrs := [("content", "d"), ("author_name", "a")],
                          created_at := some 5, updated_at := some 7 }],
           nextId := 3 }) := by decide
  exact ⟨h, ((C8_patch_timestamps 7
    (create_fortune_once 5 {} { author := "a", tags := [], content := "c" }).2).1
      2 { author := none, tags := none, content := some "d" } _ _ h).1⟩

/-- C8 as stated is false on the code: the timestamps come from the storage
clock, so a PATCH in the same clock tick as the insert (SQLite timestamps
have finite resolution) leaves updated_at equal to created_at, not strictly
later - on this concrete run both are tick 5, and 5 < 5 fails. -/
theorem C8_strictness_counterexample :
    (patch_fortune_once 5
        (create_fortune_once 5 {} { author := "a", tags := [], content := "c" }).2 2
        { author := none, tags := none, content := some "d" }).1
      = Except.ok { id := some 2, attrs := [("content", "d"), ("author_name", "a")],
                    created_at := some 5, updated_at := some 5 }
    ∧ ¬ ((5 : Nat) < 5) := by
  exact ⟨by decide, by decide⟩

end Lucky
